import Mathlib

/-!
Shallow embedding of the deterministic core of the aegis-k8s cluster
simulator (backend/core/simulator): the entity model in state.py, the
first-fit scheduler in scheduler.py, and the chaos event dispatcher in
chaos.py.

Modelling conventions:
- Python floats are modelled as rationals (all arithmetic in the source is
  +, -, *, /, min, max and comparisons, which are exact here).
- Python ints are modelled as Int (Nat where the source guarantees
  non-negativity, e.g. restart counters).
- A raised exception (ValueError) is modelled by an Option/none result:
  the raising call returns no updated entity, so the caller's entities
  are untouched, matching the source where the raise happens before any
  mutation.
- dict.get with a default is modelled by Option plus getD, or by a plain
  field when the source always defaults (event payload fields).
- Handler result dicts are modelled by their status and reason fields;
  the extra observability fields (affected_pods, new_phase, ...) carry no
  control-flow weight in the source and are not modelled.
-/

/-- One taint entry of a node: a dict with key, value and effect strings.
The source reads the effect with taint.get ("effect", "") so an absent
effect behaves as the empty string. -/
structure Taint where
  key : String
  value : String
  effect : Option String
deriving DecidableEq, Repr

/-- taint.get ("effect", "") from scheduler.py line 132. -/
def Taint.effect_or_empty (t : Taint) : String :=
  t.effect.getD ""

/-- Node from state.py: a fake server with capacity, usage, labels,
taints, cordon flag and the list of running pod ids. -/
structure Node where
  node_id : String
  cpu_capacity : ℚ
  mem_capacity : ℚ
  allocatable_cpu : ℚ
  allocatable_mem : ℚ
  current_cpu_usage : ℚ
  current_mem_usage : ℚ
  labels : List (String × String)
  taints : List Taint
  cordoned : Bool
  pods_running : List String
deriving DecidableEq, Repr

/-- Node.__init__: usage starts at 0.0, cordoned False, no running pods. -/
def Node.init (node_id : String) (cpu_capacity mem_capacity : ℚ)
    (allocatable_cpu allocatable_mem : ℚ)
    (labels : List (String × String)) (taints : List Taint) : Node :=
  { node_id := node_id
    cpu_capacity := cpu_capacity
    mem_capacity := mem_capacity
    allocatable_cpu := allocatable_cpu
    allocatable_mem := allocatable_mem
    current_cpu_usage := 0
    current_mem_usage := 0
    labels := labels
    taints := taints
    cordoned := false
    pods_running := [] }

/-- Node.available_cpu: allocatable minus current usage. -/
def Node.available_cpu (n : Node) : ℚ :=
  n.allocatable_cpu - n.current_cpu_usage

/-- Node.available_mem: allocatable minus current usage. -/
def Node.available_mem (n : Node) : ℚ :=
  n.allocatable_mem - n.current_mem_usage

/-- Node.can_fit_pod: False if cordoned, otherwise both available-resource
checks must pass. -/
def Node.can_fit_pod (n : Node) (cpu_request mem_request : ℚ) : Bool :=
  if n.cordoned then false
  else decide (cpu_request ≤ n.available_cpu) && decide (mem_request ≤ n.available_mem)

/-- Node.assign_pod: raises ValueError (modelled as none) when
can_fit_pod fails, before any mutation; otherwise appends the pod id and
adds the requests to the usage counters. -/
def Node.assign_pod (n : Node) (pod_id : String) (cpu_request mem_request : ℚ) :
    Option Node :=
  if ¬ n.can_fit_pod cpu_request mem_request then none
  else some { n with
    pods_running := n.pods_running ++ [pod_id]
    current_cpu_usage := n.current_cpu_usage + cpu_request
    current_mem_usage := n.current_mem_usage + mem_request }

/-- Node.remove_pod: removes the pod id from the running list when
present (first occurrence, as list.remove does), then unconditionally
subtracts the requests from usage, clamped at 0.0 by max. -/
def Node.remove_pod (n : Node) (pod_id : String) (cpu_request mem_request : ℚ) :
    Node :=
  { n with
    pods_running :=
      if pod_id ∈ n.pods_running then n.pods_running.erase pod_id
      else n.pods_running
    current_cpu_usage := max 0 (n.current_cpu_usage - cpu_request)
    current_mem_usage := max 0 (n.current_mem_usage - mem_request) }

/-- Pod from state.py: one unit of work with requests, limits, simulated
usage, phase string, restart count, optional assigned node and a probe
flag. -/
structure Pod where
  pod_id : String
  workload_id : String
  namespc : String
  cpu_request : ℚ
  mem_request : ℚ
  cpu_limit : ℚ
  mem_limit : ℚ
  simulated_cpu_usage : ℚ
  simulated_mem_usage : ℚ
  phase : String
  restart_count : Nat
  assigned_node : Option String
  last_probe_success : Bool
deriving DecidableEq, Repr

/-- Pod.__init__: simulated usage 0.0, restart count 0, no assigned node,
probe flag True; phase defaults to pending at call sites. -/
def Pod.init (pod_id workload_id namespc : String)
    (cpu_request mem_request cpu_limit mem_limit : ℚ)
    (phase : String) : Pod :=
  { pod_id := pod_id
    workload_id := workload_id
    namespc := namespc
    cpu_request := cpu_request
    mem_request := mem_request
    cpu_limit := cpu_limit
    mem_limit := mem_limit
    simulated_cpu_usage := 0
    simulated_mem_usage := 0
    phase := phase
    restart_count := 0
    assigned_node := none
    last_probe_success := true }

/-- Pod.is_running. -/
def Pod.is_running (p : Pod) : Bool :=
  p.phase = "running"

/-- Pod.is_pending. -/
def Pod.is_pending (p : Pod) : Bool :=
  p.phase = "pending"

/-- Pod.crash: phase becomes crash_loop and the restart counter goes up
by one. -/
def Pod.crash (p : Pod) : Pod :=
  { p with phase := "crash_loop", restart_count := p.restart_count + 1 }

/-- Pod.start_running: phase running, node recorded, simulated usage set
to the request values. -/
def Pod.start_running (p : Pod) (node_id : String) : Pod :=
  { p with
    phase := "running"
    assigned_node := some node_id
    simulated_cpu_usage := p.cpu_request
    simulated_mem_usage := p.mem_request }

/-- Pod.spike_cpu_usage: usage times multiplier, capped at the limit. -/
def Pod.spike_cpu_usage (p : Pod) (multiplier : ℚ) : Pod :=
  { p with simulated_cpu_usage := min (p.simulated_cpu_usage * multiplier) p.cpu_limit }

/-- Pod.spike_mem_usage: usage times multiplier, capped at the limit. -/
def Pod.spike_mem_usage (p : Pod) (multiplier : ℚ) : Pod :=
  { p with simulated_mem_usage := min (p.simulated_mem_usage * multiplier) p.mem_limit }

/-- Workload from state.py: desired replica count plus a pod template. -/
structure Workload where
  workload_id : String
  namespc : String
  desired_replicas : Int
  labels : List (String × String)
  selector : List (String × String)
deriving DecidableEq, Repr

/-- Workload.scale_to: raises ValueError (modelled as none, no mutation)
when the target is negative, otherwise sets desired_replicas. -/
def Workload.scale_to (w : Workload) (new_replicas : Int) : Option Workload :=
  if new_replicas < 0 then none
  else some { w with desired_replicas := new_replicas }

/-- HPA from state.py: scaling bounds, target utilization and a bounded
FIFO window of utilization samples. -/
structure HPA where
  hpa_id : String
  workload_id : String
  target_utilization_percent : ℚ
  min_replicas : Int
  max_replicas : Int
  metric_window : List ℚ
  metric_window_size : Nat
deriving DecidableEq, Repr

/-- HPA.record_utilization: append the sample; when the window has grown
past its capacity, drop the oldest entry (list.pop at index 0). -/
def HPA.record_utilization (h : HPA) (cpu_utilization : ℚ) : HPA :=
  let w := h.metric_window ++ [cpu_utilization]
  { h with metric_window := if h.metric_window_size < w.length then w.tail else w }

/-- HPA.average_utilization: arithmetic mean of the window, 0.0 when the
window is empty. -/
def HPA.average_utilization (h : HPA) : ℚ :=
  if h.metric_window = [] then 0
  else h.metric_window.sum / h.metric_window.length

/-- Python int() applied to a rational: truncation toward zero. -/
def truncToward0 (q : ℚ) : Int :=
  if q < 0 then -Int.floor (-q) else Int.floor q

/-- HPA.compute_desired_replicas: return current unchanged when the
window average or the target is 0.0; otherwise scale by the ratio,
truncate with int(), and clamp into the min/max bounds. -/
def HPA.compute_desired_replicas (h : HPA) (current_replicas : Int) : Int :=
  let avg_util := h.average_utilization
  if avg_util = 0 ∨ h.target_utilization_percent = 0 then current_replicas
  else
    let ratio := avg_util / h.target_utilization_percent
    let desired := truncToward0 (current_replicas * ratio)
    max h.min_replicas (min desired h.max_replicas)

/-- One ingress rule of a network policy: its from_selector label map
(the further matching criteria are unread by the source). -/
structure IngressRule where
  from_selector : List (String × String)
deriving DecidableEq, Repr

/-- NetworkPolicy from state.py: a pod-to-pod ingress firewall record. -/
structure NetworkPolicy where
  policy_id : String
  namespc : String
  pod_selector : List (String × String)
  allowed_ingress : List IngressRule
  enforced : Bool
deriving DecidableEq, Repr

/-- NetworkPolicy.toggle_enforcement: flip the enforced flag. -/
def NetworkPolicy.toggle_enforcement (np : NetworkPolicy) : NetworkPolicy :=
  { np with enforced := !np.enforced }

/-- Lookup in a label map, as source_labels.get (k). -/
def labelsGet (labels : List (String × String)) (k : String) : Option String :=
  (labels.find? (fun kv => kv.1 = k)).map (fun kv => kv.2)

/-- NetworkPolicy.is_ingress_allowed: everything is allowed when not
enforced; otherwise some rule's from_selector must match the source
labels on every key. -/
def NetworkPolicy.is_ingress_allowed (np : NetworkPolicy)
    (source_labels : List (String × String)) : Bool :=
  if ¬ np.enforced then true
  else np.allowed_ingress.any (fun rule =>
    rule.from_selector.all (fun kv => labelsGet source_labels kv.1 = some kv.2))

/-! ## Scheduler (scheduler.py): pure first-fit placement -/

/-- The sort key relation of sorted(self.nodes, key=lambda n: n.node_id):
compare nodes by identifier. -/
def nodeIdLe (a b : Node) : Prop :=
  a.node_id ≤ b.node_id

instance : DecidableRel nodeIdLe := fun a b =>
  inferInstanceAs (Decidable (a.node_id ≤ b.node_id))

instance : IsTotal Node nodeIdLe :=
  ⟨fun a b => le_total a.node_id b.node_id⟩

instance : IsTrans Node nodeIdLe :=
  ⟨fun _ _ _ hab hbc => le_trans hab hbc⟩

instance : IsRefl Node nodeIdLe :=
  ⟨fun a => le_refl a.node_id⟩

namespace Scheduler

/-- Scheduler._is_blocked_by_taints: any taint whose effect is NoSchedule
or NoExecute blocks (the pod argument is unread by the source, since pods
carry no tolerations). -/
def is_blocked_by_taints (node : Node) : Bool :=
  node.taints.any (fun taint =>
    let effect := taint.effect_or_empty
    effect = "NoSchedule" || effect = "NoExecute")

/-- The body of the select_node loop: a node survives all four continue
checks (not cordoned, enough cpu, enough mem, no blocking taint). -/
def node_passes_checks (pod : Pod) (node : Node) : Bool :=
  !node.cordoned
    && !(decide (node.available_cpu < pod.cpu_request))
    && !(decide (node.available_mem < pod.mem_request))
    && !(is_blocked_by_taints node)

/-- Scheduler.select_node: sort nodes by id, return the first node
passing all four checks, none when every node fails (the for loop with
continue over the sorted list is the first match search). -/
def select_node (nodes : List Node) (pod : Pod) : Option Node :=
  let sorted_nodes := List.insertionSort nodeIdLe nodes
  sorted_nodes.find? (fun node => node_passes_checks pod node)

/-- Scheduler.assign_pod_to_node: re-validate can_fit_pod and raise
ValueError (modelled as none, before any mutation) when it fails;
otherwise perform the five mutations on the pod and the node. -/
def assign_pod_to_node (pod : Pod) (node : Node) : Option (Pod × Node) :=
  if ¬ node.can_fit_pod pod.cpu_request pod.mem_request then none
  else some
    ({ pod with
        phase := "running"
        assigned_node := some node.node_id
        simulated_cpu_usage := pod.cpu_request
        simulated_mem_usage := pod.mem_request },
     { node with
        pods_running := node.pods_running ++ [pod.pod_id]
        current_cpu_usage := node.current_cpu_usage + pod.cpu_request
        current_mem_usage := node.current_mem_usage + pod.mem_request })

end Scheduler

/-! ## ChaosManager (chaos.py): scheduled chaos event dispatch -/

/-- The cluster state a ChaosManager mutates through its references:
the live node, pod and network-policy lists. -/
structure ChaosState where
  nodes : List Node
  pods : List Pod
  network_policies : List NetworkPolicy
deriving DecidableEq, Repr

/-- A chaos event dict. Fields the handlers read with .get and a default
are plain fields holding that default when absent; identifier fields read
with a bare .get are Option (absent = None). -/
structure ChaosEvent where
  tick : Option Int := none
  type : String := ""
  pod_id : Option String := none
  node_id : Option String := none
  policy_id : Option String := none
  pod_ids : List String := []
  cpu_increase : ℚ := 0
  memory_increase : ℚ := 0
deriving DecidableEq, Repr

/-- A handler result dict, restricted to its status and reason fields
(the handler-specific observability fields are not modelled). -/
structure EventResult where
  status : String
  reason : Option String := none
deriving DecidableEq, Repr

/-- In-place mutation of the first list element a Python find-by-id
returned a reference to: rewrite the first element satisfying p. -/
def updateFirst {α : Type} (p : α → Bool) (f : α → α) : List α → List α
  | [] => []
  | x :: xs => if p x then f x :: xs else x :: updateFirst p f xs

/-- ChaosManager._find_pod_by_id: None id finds nothing, otherwise first
pod with that id. -/
def find_pod_by_id (pods : List Pod) (pod_id : Option String) : Option Pod :=
  match pod_id with
  | none => none
  | some pid => pods.find? (fun p => decide (p.pod_id = pid))

/-- ChaosManager._find_node_by_id. -/
def find_node_by_id (nodes : List Node) (node_id : Option String) : Option Node :=
  match node_id with
  | none => none
  | some nid => nodes.find? (fun n => decide (n.node_id = nid))

/-- ChaosManager._find_network_policy_by_id. -/
def find_network_policy_by_id (policies : List NetworkPolicy)
    (policy_id : Option String) : Option NetworkPolicy :=
  match policy_id with
  | none => none
  | some pid => policies.find? (fun np => decide (np.policy_id = pid))

namespace ChaosManager

/-- ChaosManager._handle_pod_crash: crash the target pod, fail when it is
not found. -/
def handle_pod_crash (st : ChaosState) (event : ChaosEvent) :
    EventResult × ChaosState :=
  match find_pod_by_id st.pods event.pod_id with
  | none =>
    ({ status := "failed"
       reason := some ("Pod " ++ event.pod_id.getD "None" ++ " not found") }, st)
  | some pod =>
    ({ status := "executed" },
     { st with pods :=
        (updateFirst (fun p => decide (p.pod_id = pod.pod_id)) Pod.crash st.pods) })

/-- ChaosManager._handle_node_cordon: set cordoned on the target node,
fail when it is not found. -/
def handle_node_cordon (st : ChaosState) (event : ChaosEvent) :
    EventResult × ChaosState :=
  match find_node_by_id st.nodes event.node_id with
  | none =>
    ({ status := "failed"
       reason := some ("Node " ++ event.node_id.getD "None" ++ " not found") }, st)
  | some node =>
    ({ status := "executed" },
     { st with nodes :=
        (updateFirst (fun n => decide (n.node_id = node.node_id))
          (fun n => { n with cordoned := true }) st.nodes) })

/-- ChaosManager._handle_node_drain: identical mutation to cordon (no
eviction of running pods). -/
def handle_node_drain (st : ChaosState) (event : ChaosEvent) :
    EventResult × ChaosState :=
  match find_node_by_id st.nodes event.node_id with
  | none =>
    ({ status := "failed"
       reason := some ("Node " ++ event.node_id.getD "None" ++ " not found") }, st)
  | some node =>
    ({ status := "executed" },
     { st with nodes :=
        (updateFirst (fun n => decide (n.node_id = node.node_id))
          (fun n => { n with cordoned := true }) st.nodes) })

/-- One iteration of the _handle_burst_traffic loop over pod_ids: missing
pods are skipped; an existing pod gets its simulated cpu raised by
cpu_increase clamped at its limit, and when the pod has a (truthy)
assigned node that is found, that node's cpu counter rises unclamped. -/
def burstStep (cpu_increase : ℚ) (acc : List Node × List Pod) (pid : String) :
    List Node × List Pod :=
  match acc.2.find? (fun p => decide (p.pod_id = pid)) with
  | none => acc
  | some pod =>
    let pods1 := updateFirst (fun p => decide (p.pod_id = pid))
      (fun p => { p with simulated_cpu_usage :=
        (min (p.simulated_cpu_usage + cpu_increase) p.cpu_limit) }) acc.2
    let nodes1 :=
      match pod.assigned_node with
      | none => acc.1
      | some nid =>
        -- Python truthiness: if pod.assigned_node is the empty string the
        -- node update is skipped
        if nid = "" then acc.1
        else
          match acc.1.find? (fun n => decide (n.node_id = nid)) with
          | none => acc.1
          | some _ =>
            updateFirst (fun n => decide (n.node_id = nid))
              (fun n => { n with current_cpu_usage :=
                (n.current_cpu_usage + cpu_increase) }) acc.1
    (nodes1, pods1)

/-- ChaosManager._handle_burst_traffic: apply burstStep to every entry of
pod_ids in order; the result status is executed regardless of skips. -/
def handle_burst_traffic (st : ChaosState) (event : ChaosEvent) :
    EventResult × ChaosState :=
  let acc := event.pod_ids.foldl (burstStep event.cpu_increase) (st.nodes, st.pods)
  ({ status := "executed" }, { st with nodes := acc.1, pods := acc.2 })

/-- The per-pod mutation of the _handle_oom_storm loop body: simulated
memory rises by memory_increase without clamping, and the pod crashes
(phase crash_loop, restart count +1) exactly when the new usage strictly
exceeds its memory limit. -/
def oomPodUpdate (memory_increase : ℚ) (p : Pod) : Pod :=
  let p1 := { p with simulated_mem_usage := p.simulated_mem_usage + memory_increase }
  if p1.mem_limit < p1.simulated_mem_usage then
    { p1 with phase := "crash_loop", restart_count := p1.restart_count + 1 }
  else p1

/-- The per-node mutation of the _handle_oom_storm loop body: the memory
counter rises by memory_increase, unclamped, regardless of the crash. -/
def oomNodeUpdate (memory_increase : ℚ) (n : Node) : Node :=
  { n with current_mem_usage := n.current_mem_usage + memory_increase }

/-- One iteration of the _handle_oom_storm loop over pod_ids: missing
pods are skipped; an existing pod (the first with the id) undergoes
oomPodUpdate, and when it has a (truthy) assigned node that is found,
that node undergoes oomNodeUpdate. -/
def oomStep (memory_increase : ℚ) (acc : List Node × List Pod) (pid : String) :
    List Node × List Pod :=
  match acc.2.find? (fun p => decide (p.pod_id = pid)) with
  | none => acc
  | some pod =>
    let pods1 := updateFirst (fun p => decide (p.pod_id = pid))
      (oomPodUpdate memory_increase) acc.2
    let nodes1 :=
      match pod.assigned_node with
      | none => acc.1
      | some nid =>
        if nid = "" then acc.1
        else
          match acc.1.find? (fun n => decide (n.node_id = nid)) with
          | none => acc.1
          | some _ =>
            updateFirst (fun n => decide (n.node_id = nid))
              (oomNodeUpdate memory_increase) acc.1
    (nodes1, pods1)

/-- ChaosManager._handle_oom_storm: apply oomStep to every entry of
pod_ids in order; the result status is executed regardless of skips. -/
def handle_oom_storm (st : ChaosState) (event : ChaosEvent) :
    EventResult × ChaosState :=
  let acc := event.pod_ids.foldl (oomStep event.memory_increase) (st.nodes, st.pods)
  ({ status := "executed" }, { st with nodes := acc.1, pods := acc.2 })

/-- ChaosManager._handle_netpol_lockout: set enforced on the target
policy, fail when it is not found. -/
def handle_netpol_lockout (st : ChaosState) (event : ChaosEvent) :
    EventResult × ChaosState :=
  match find_network_policy_by_id st.network_policies event.policy_id with
  | none =>
    ({ status := "failed"
       reason := some ("Policy " ++ event.policy_id.getD "None" ++ " not found") }, st)
  | some policy =>
    ({ status := "executed" },
     { st with network_policies :=
        (updateFirst (fun np => decide (np.policy_id = policy.policy_id))
          (fun np => { np with enforced := true }) st.network_policies) })

/-- ChaosManager._handle_probe_failure: mark the probe failed, move the
pod to crash_loop and bump its restart counter; fail when the pod is not
found. -/
def handle_probe_failure (st : ChaosState) (event : ChaosEvent) :
    EventResult × ChaosState :=
  match find_pod_by_id st.pods event.pod_id with
  | none =>
    ({ status := "failed"
       reason := some ("Pod " ++ event.pod_id.getD "None" ++ " not found") }, st)
  | some pod =>
    ({ status := "executed" },
     { st with pods :=
        (updateFirst (fun p => decide (p.pod_id = pod.pod_id))
          (fun p => { p with
            last_probe_success := false
            phase := "crash_loop"
            restart_count := p.restart_count + 1 }) st.pods) })

/-- ChaosManager._dispatch_event: route the event through the fixed
handler table keyed on its type string; an unknown type yields a failed
result and runs no handler. -/
def dispatch_event (st : ChaosState) (event : ChaosEvent) :
    EventResult × ChaosState :=
  match event.type with
  | "pod_crash" => handle_pod_crash st event
  | "node_cordon" => handle_node_cordon st event
  | "node_drain" => handle_node_drain st event
  | "burst_traffic" => handle_burst_traffic st event
  | "oom_storm" => handle_oom_storm st event
  | "netpol_lockout" => handle_netpol_lockout st event
  | "probe_failure" => handle_probe_failure st event
  | _ =>
    ({ status := "failed"
       reason := some ("Unknown chaos event type: " ++ event.type) }, st)

/-- ChaosManager.execute_events_for_tick: dispatch, in schedule order,
every event whose tick equals the current tick, threading the state and
collecting the results. -/
def execute_events_for_tick (st : ChaosState) (event_schedule : List ChaosEvent)
    (current_tick : Int) : List EventResult × ChaosState :=
  event_schedule.foldl
    (fun acc event =>
      if event.tick = some current_tick then
        let r := dispatch_event acc.2 event
        (acc.1 ++ [r.1], r.2)
      else acc)
    ([], st)

end ChaosManager

/-! ## Theorems -/

/-- A cold HPA used as concrete input: bounds 1..5, target 50, empty
metric window. -/
def hpaCold : HPA :=
  { hpa_id := "hpa-1"
    workload_id := "w-1"
    target_utilization_percent := 50
    min_replicas := 1
    max_replicas := 5
    metric_window := []
    metric_window_size := 5 }

/-- C1 counterexample: with min_replicas = 1 ≤ max_replicas = 5, the
empty utilization history, and current_replicas = 0, the function
returns 0, strictly below min_replicas, so the result is not inside
the bounds. -/
theorem hpa_clamp_counterexample :
    hpaCold.min_replicas ≤ hpaCold.max_replicas ∧
    HPA.compute_desired_replicas hpaCold 0 < hpaCold.min_replicas := by
  constructor
  · decide
  · show HPA.compute_desired_replicas hpaCold 0 < 1
    have h0 : HPA.compute_desired_replicas hpaCold 0 = 0 := by
      simp [HPA.compute_desired_replicas, HPA.average_utilization, hpaCold]
    rw [h0]
    decide

/-- C1 (amended): when the averaged utilization and the target are both
nonzero and min_replicas ≤ max_replicas, compute_desired_replicas lands
inside the bounds for every integer current_replicas input; when the
average or the target is 0.0 the function returns current_replicas
unchanged, which may lie outside the bounds. -/
theorem hpa_clamp_amended (h : HPA) (current : Int) :
    (h.min_replicas ≤ h.max_replicas →
      h.average_utilization ≠ 0 →
      h.target_utilization_percent ≠ 0 →
      h.min_replicas ≤ h.compute_desired_replicas current ∧
        h.compute_desired_replicas current ≤ h.max_replicas) ∧
    (h.average_utilization = 0 ∨ h.target_utilization_percent = 0 →
      h.compute_desired_replicas current = current) := by
  by_cases hc : h.average_utilization = 0 ∨ h.target_utilization_percent = 0
  · refine ⟨fun _ hav htg => absurd (hc.resolve_left hav) htg, fun _ => ?_⟩
    simp only [HPA.compute_desired_replicas]
    rw [if_pos hc]
  · refine ⟨fun hminmax _ _ => ?_, fun habs => absurd habs hc⟩
    simp only [HPA.compute_desired_replicas]
    rw [if_neg hc]
    exact ⟨le_max_left _ _, max_le hminmax (min_le_right _ _)⟩

/-- A warm HPA used as concrete input: one sample of 100 against target
50 with bounds 1..5. -/
def hpaWarm : HPA :=
  { hpaCold with metric_window := [100] }

/-- Witness for the amended C1: the warm HPA has nonzero average and
target, and its decision at current = 3 is inside the bounds 1..5. -/
theorem hpa_clamp_amended_witness :
    1 ≤ HPA.compute_desired_replicas hpaWarm 3 ∧
      HPA.compute_desired_replicas hpaWarm 3 ≤ 5 :=
  (hpa_clamp_amended hpaWarm 3).1 (by decide)
    (by norm_num [HPA.average_utilization, hpaWarm, hpaCold])
    (by norm_num [hpaWarm, hpaCold])

/-- C9: with an empty utilization window, or with target utilization
0.0, compute_desired_replicas returns its current_replicas argument
unchanged. -/
theorem hpa_cold_start (h : HPA) (current : Int) :
    (h.metric_window = [] → h.compute_desired_replicas current = current) ∧
    (h.target_utilization_percent = 0 → h.compute_desired_replicas current = current) := by
  constructor
  · intro hw
    simp [HPA.compute_desired_replicas, HPA.average_utilization, hw]
  · intro ht
    simp [HPA.compute_desired_replicas, ht]

/-- Witness for C9: the cold HPA has an empty window and its decision at
current = 5 is 5. -/
theorem hpa_cold_start_witness :
    hpaCold.metric_window = [] ∧ HPA.compute_desired_replicas hpaCold 5 = 5 :=
  ⟨rfl, (hpa_cold_start hpaCold 5).1 rfl⟩

/-- A concrete workload with 3 desired replicas. -/
def wl0 : Workload :=
  { workload_id := "w-1"
    namespc := "default"
    desired_replicas := 3
    labels := []
    selector := [] }

/-- C7 counterexample: scale_to (-1) raises ValueError to the caller
(modelled as none: the call produces no updated workload), so the
invalid input is not surfaced as a structured failure result. -/
theorem scale_to_negative_raises :
    Workload.scale_to wl0 (-1) = none := by
  decide

/-- C7 (amended): scale_to leaves desired_replicas unchanged and raises
ValueError to the caller (not a structured failure result) when the
target is negative; with a non-negative target it sets desired_replicas
to the target. -/
theorem scale_to_amended (w : Workload) (n : Int) :
    (n < 0 → w.scale_to n = none) ∧
    (0 ≤ n → w.scale_to n = some { w with desired_replicas := n }) := by
  constructor
  · intro hn
    simp [Workload.scale_to, hn]
  · intro hn
    simp [Workload.scale_to, not_lt.mpr hn]

/-- Witness for the amended C7 at the concrete workload: a negative
target raises, a non-negative target updates. -/
theorem scale_to_amended_witness :
    Workload.scale_to wl0 (-2) = none ∧
      Workload.scale_to wl0 7 = some { wl0 with desired_replicas := 7 } :=
  ⟨(scale_to_amended wl0 (-2)).1 (by decide),
   (scale_to_amended wl0 7).2 (by decide)⟩

/-- A concrete node with nonzero usage and one running pod, used for the
remove_pod claims. -/
def nodeGhost : Node :=
  { node_id := "n-1"
    cpu_capacity := 8
    mem_capacity := 8
    allocatable_cpu := 8
    allocatable_mem := 8
    current_cpu_usage := 2
    current_mem_usage := 2
    labels := []
    taints := []
    cordoned := false
    pods_running := ["p-1"] }

/-- C8 counterexample: remove_pod with a pod id absent from the running
set is not a no-op on usage: the requests are still subtracted from the
usage counters. -/
theorem remove_pod_missing_id_mutates_usage :
    nodeGhost.pods_running.contains "ghost" = false ∧
    (nodeGhost.remove_pod "ghost" 1 1).current_cpu_usage = 1 ∧
    (nodeGhost.remove_pod "ghost" 1 1).current_mem_usage = 1 ∧
    nodeGhost.current_cpu_usage = 2 ∧
    nodeGhost.current_mem_usage = 2 := by
  refine ⟨by decide, ?_, ?_, rfl, rfl⟩ <;>
    norm_num [Node.remove_pod, nodeGhost]

/-- C8 (amended): remove_pod tolerates a missing pod id without error
(the running set is untouched for an absent id), but it subtracts the
given requests from both usage counters regardless of membership,
clamping each at zero; all other node fields are unchanged. -/
theorem remove_pod_amended (node : Node) (pid : String) (c m : ℚ) :
    (node.remove_pod pid c m).current_cpu_usage =
        max 0 (node.current_cpu_usage - c) ∧
    (node.remove_pod pid c m).current_mem_usage =
        max 0 (node.current_mem_usage - m) ∧
    0 ≤ (node.remove_pod pid c m).current_cpu_usage ∧
    0 ≤ (node.remove_pod pid c m).current_mem_usage ∧
    (pid ∉ node.pods_running →
      (node.remove_pod pid c m).pods_running = node.pods_running) ∧
    (node.remove_pod pid c m).node_id = node.node_id ∧
    (node.remove_pod pid c m).allocatable_cpu = node.allocatable_cpu ∧
    (node.remove_pod pid c m).allocatable_mem = node.allocatable_mem ∧
    (node.remove_pod pid c m).cordoned = node.cordoned := by
  refine ⟨rfl, rfl, le_max_left _ _, le_max_left _ _, fun hmem => ?_, rfl, rfl, rfl, rfl⟩
  simp [Node.remove_pod, hmem]

/-- Witness for the amended C8 at the concrete node with a missing pod
id. -/
theorem remove_pod_amended_witness :
    (nodeGhost.remove_pod "ghost" 1 1).current_cpu_usage =
      max 0 (nodeGhost.current_cpu_usage - 1) ∧
    (nodeGhost.remove_pod "ghost" 1 1).pods_running = nodeGhost.pods_running := by
  have h := remove_pod_amended nodeGhost "ghost" 1 1
  exact ⟨h.1, h.2.2.2.2.1 (by decide)⟩

/-- One operation of a Node mutation sequence: an assign_pod call or a
remove_pod call with its arguments. -/
inductive NodeOp where
  | assign (pod_id : String) (cpu_request mem_request : ℚ)
  | remove (pod_id : String) (cpu_request mem_request : ℚ)
deriving DecidableEq, Repr

/-- The requests carried by an operation are non-negative. -/
def NodeOp.requests_nonneg : NodeOp → Prop
  | .assign _ c m => 0 ≤ c ∧ 0 ≤ m
  | .remove _ c m => 0 ≤ c ∧ 0 ≤ m

instance : DecidablePred NodeOp.requests_nonneg := fun op => by
  cases op <;> exact inferInstanceAs (Decidable (_ ∧ _))

/-- Run one operation against a node: a raising assign_pod call (the
ValueError case) leaves the node exactly as it was, since the raise
happens before any mutation. -/
def applyNodeOp (n : Node) : NodeOp → Node
  | .assign pid c m => (n.assign_pod pid c m).getD n
  | .remove pid c m => n.remove_pod pid c m

/-- The resource-accounting invariant of a node: both usage counters sit
between zero and the allocatable amounts. -/
def nodeUsageInv (n : Node) : Prop :=
  0 ≤ n.current_cpu_usage ∧ n.current_cpu_usage ≤ n.allocatable_cpu ∧
    0 ≤ n.current_mem_usage ∧ n.current_mem_usage ≤ n.allocatable_mem

lemma applyNodeOp_allocatable (n : Node) (op : NodeOp) :
    (applyNodeOp n op).allocatable_cpu = n.allocatable_cpu ∧
      (applyNodeOp n op).allocatable_mem = n.allocatable_mem := by
  cases op with
  | assign pid c m =>
    simp only [applyNodeOp, Node.assign_pod]
    split
    · simp
    · simp
  | remove pid c m =>
    simp [applyNodeOp, Node.remove_pod]

lemma applyNodeOp_preserves_inv (n : Node) (op : NodeOp)
    (hop : op.requests_nonneg) (hn : nodeUsageInv n) :
    nodeUsageInv (applyNodeOp n op) := by
  obtain ⟨h1, h2, h3, h4⟩ := hn
  cases op with
  | assign pid c m =>
    obtain ⟨hc, hm⟩ := hop
    simp only [applyNodeOp, Node.assign_pod]
    split
    · simpa [nodeUsageInv] using ⟨h1, h2, h3, h4⟩
    · rename_i hfit
      rw [not_not] at hfit
      have hfit' := hfit
      simp only [Node.can_fit_pod] at hfit'
      split at hfit'
      · exact absurd hfit' (by simp)
      · simp only [Bool.and_eq_true, decide_eq_true_eq, Node.available_cpu,
          Node.available_mem] at hfit'
        obtain ⟨hcfit, hmfit⟩ := hfit'
        refine ⟨?_, ?_, ?_, ?_⟩ <;> simp only [Option.getD_some] <;> linarith
  | remove pid c m =>
    obtain ⟨hc, hm⟩ := hop
    refine ⟨le_max_left _ _, ?_, le_max_left _ _, ?_⟩
    · simp only [applyNodeOp, Node.remove_pod]
      exact max_le (by linarith) (by linarith)
    · simp only [applyNodeOp, Node.remove_pod]
      exact max_le (by linarith) (by linarith)

lemma foldl_applyNodeOp_inv (ops : List NodeOp) (n : Node)
    (hops : ∀ op ∈ ops, op.requests_nonneg) (hn : nodeUsageInv n) :
    nodeUsageInv (ops.foldl applyNodeOp n) := by
  induction ops generalizing n with
  | nil => exact hn
  | cons op rest ih =>
    exact ih _ (fun o ho => hops o (List.mem_cons_of_mem _ ho))
      (applyNodeOp_preserves_inv n op (hops op (List.mem_cons_self _ _)) hn)

/-- C2: starting from a freshly constructed node with non-negative
allocatable values, after any sequence of assign_pod / remove_pod
operations with non-negative requests, both usage counters are
non-negative and bounded by the allocatable amounts. -/
theorem node_capacity_invariant (node_id : String)
    (cpu_capacity mem_capacity allocatable_cpu allocatable_mem : ℚ)
    (labels : List (String × String)) (taints : List Taint)
    (ops : List NodeOp)
    (hcpu : 0 ≤ allocatable_cpu) (hmem : 0 ≤ allocatable_mem)
    (hops : ∀ op ∈ ops, op.requests_nonneg) :
    0 ≤ (ops.foldl applyNodeOp
          (Node.init node_id cpu_capacity mem_capacity allocatable_cpu
            allocatable_mem labels taints)).current_cpu_usage ∧
    (ops.foldl applyNodeOp
          (Node.init node_id cpu_capacity mem_capacity allocatable_cpu
            allocatable_mem labels taints)).current_cpu_usage ≤
      (ops.foldl applyNodeOp
          (Node.init node_id cpu_capacity mem_capacity allocatable_cpu
            allocatable_mem labels taints)).allocatable_cpu ∧
    0 ≤ (ops.foldl applyNodeOp
          (Node.init node_id cpu_capacity mem_capacity allocatable_cpu
            allocatable_mem labels taints)).current_mem_usage ∧
    (ops.foldl applyNodeOp
          (Node.init node_id cpu_capacity mem_capacity allocatable_cpu
            allocatable_mem labels taints)).current_mem_usage ≤
      (ops.foldl applyNodeOp
          (Node.init node_id cpu_capacity mem_capacity allocatable_cpu
            allocatable_mem labels taints)).allocatable_mem :=
  foldl_applyNodeOp_inv ops _
    (fun op ho => hops op ho)
    (by simp [nodeUsageInv, Node.init, hcpu, hmem])

/-- Witness for C2: a concrete run of two assigns (one of which raises
for lack of capacity) and a remove against a fresh 4-cpu/8-mem node. -/
theorem node_capacity_invariant_witness :
    0 ≤ ([NodeOp.assign "p-1" 2 3, NodeOp.assign "p-2" 3 3,
          NodeOp.remove "p-1" 2 3].foldl applyNodeOp
            (Node.init "n-1" 4 8 4 8 [] [])).current_cpu_usage ∧
    ([NodeOp.assign "p-1" 2 3, NodeOp.assign "p-2" 3 3,
          NodeOp.remove "p-1" 2 3].foldl applyNodeOp
            (Node.init "n-1" 4 8 4 8 [] [])).current_cpu_usage ≤
      ([NodeOp.assign "p-1" 2 3, NodeOp.assign "p-2" 3 3,
          NodeOp.remove "p-1" 2 3].foldl applyNodeOp
            (Node.init "n-1" 4 8 4 8 [] [])).allocatable_cpu ∧
    0 ≤ ([NodeOp.assign "p-1" 2 3, NodeOp.assign "p-2" 3 3,
          NodeOp.remove "p-1" 2 3].foldl applyNodeOp
            (Node.init "n-1" 4 8 4 8 [] [])).current_mem_usage ∧
    ([NodeOp.assign "p-1" 2 3, NodeOp.assign "p-2" 3 3,
          NodeOp.remove "p-1" 2 3].foldl applyNodeOp
            (Node.init "n-1" 4 8 4 8 [] [])).current_mem_usage ≤
      ([NodeOp.assign "p-1" 2 3, NodeOp.assign "p-2" 3 3,
          NodeOp.remove "p-1" 2 3].foldl applyNodeOp
            (Node.init "n-1" 4 8 4 8 [] [])).allocatable_mem :=
  node_capacity_invariant "n-1" 4 8 4 8 [] []
    [NodeOp.assign "p-1" 2 3, NodeOp.assign "p-2" 3 3, NodeOp.remove "p-1" 2 3]
    (by norm_num) (by norm_num)
    (by intro op ho; fin_cases ho <;> exact ⟨by norm_num, by norm_num⟩)

/-- C4: assign_pod_to_node raises InsufficientCapacity (modelled as
none, with neither entity mutated since the raise precedes every
mutation) exactly when can_fit_pod is false at call time; on success the
returned pod and node differ from the inputs in precisely the five
documented mutations plus the simulated-usage baseline, every other
field being unchanged. -/
theorem assign_pod_to_node_spec (pod : Pod) (node : Node) :
    (Scheduler.assign_pod_to_node pod node = none ↔
      node.can_fit_pod pod.cpu_request pod.mem_request = false) ∧
    (∀ p' n', Scheduler.assign_pod_to_node pod node = some (p', n') →
      node.can_fit_pod pod.cpu_request pod.mem_request = true ∧
      p'.phase = "running" ∧
      p'.assigned_node = some node.node_id ∧
      p'.simulated_cpu_usage = pod.cpu_request ∧
      p'.simulated_mem_usage = pod.mem_request ∧
      p'.pod_id = pod.pod_id ∧
      p'.workload_id = pod.workload_id ∧
      p'.namespc = pod.namespc ∧
      p'.cpu_request = pod.cpu_request ∧
      p'.mem_request = pod.mem_request ∧
      p'.cpu_limit = pod.cpu_limit ∧
      p'.mem_limit = pod.mem_limit ∧
      p'.restart_count = pod.restart_count ∧
      p'.last_probe_success = pod.last_probe_success ∧
      n'.pods_running = node.pods_running ++ [pod.pod_id] ∧
      n'.current_cpu_usage = node.current_cpu_usage + pod.cpu_request ∧
      n'.current_mem_usage = node.current_mem_usage + pod.mem_request ∧
      n'.node_id = node.node_id ∧
      n'.cpu_capacity = node.cpu_capacity ∧
      n'.mem_capacity = node.mem_capacity ∧
      n'.allocatable_cpu = node.allocatable_cpu ∧
      n'.allocatable_mem = node.allocatable_mem ∧
      n'.labels = node.labels ∧
      n'.taints = node.taints ∧
      n'.cordoned = node.cordoned) := by
  by_cases hfit : node.can_fit_pod pod.cpu_request pod.mem_request = true
  · constructor
    · simp [Scheduler.assign_pod_to_node, hfit]
    · intro p' n' hsome
      simp only [Scheduler.assign_pod_to_node, hfit, not_true_eq_false,
        if_false, Option.some.injEq, Prod.mk.injEq] at hsome
      obtain ⟨hp, hn⟩ := hsome
      subst hp
      subst hn
      exact ⟨hfit, rfl, rfl, rfl, rfl, rfl, rfl, rfl, rfl, rfl, rfl, rfl, rfl,
        rfl, rfl, rfl, rfl, rfl, rfl, rfl, rfl, rfl, rfl, rfl, rfl⟩
  · rw [Bool.not_eq_true] at hfit
    constructor
    · simp [Scheduler.assign_pod_to_node, hfit]
    · intro p' n' hsome
      simp [Scheduler.assign_pod_to_node, hfit] at hsome

/-- A concrete pending pod requesting 2 cpu and 3 mem. -/
def podFit : Pod :=
  Pod.init "p-1" "w-1" "default" 2 3 4 6 "pending"

/-- A concrete uncordoned empty node with 4 cpu and 8 mem allocatable. -/
def nodeFit : Node :=
  Node.init "n-1" 4 8 4 8 [] []

/-- Witness for C4: assigning the concrete pod to the concrete node
succeeds and performs exactly the documented mutations. -/
theorem assign_pod_to_node_spec_witness :
    nodeFit.can_fit_pod podFit.cpu_request podFit.mem_request = true ∧
    (Scheduler.assign_pod_to_node podFit nodeFit).map (fun pn => pn.1.phase) =
      some "running" ∧
    (Scheduler.assign_pod_to_node podFit nodeFit).map
        (fun pn => pn.1.assigned_node) = some (some nodeFit.node_id) ∧
    (Scheduler.assign_pod_to_node podFit nodeFit).map
        (fun pn => pn.2.current_cpu_usage) =
      some (nodeFit.current_cpu_usage + podFit.cpu_request) ∧
    (Scheduler.assign_pod_to_node podFit nodeFit).map
        (fun pn => pn.2.pods_running) =
      some (nodeFit.pods_running ++ [podFit.pod_id]) := by
  have hfit : nodeFit.can_fit_pod podFit.cpu_request podFit.mem_request = true := by
    norm_num [Node.can_fit_pod, Node.available_cpu, Node.available_mem,
      nodeFit, podFit, Node.init, Pod.init]
  have hsome : ∃ p' n',
      Scheduler.assign_pod_to_node podFit nodeFit = some (p', n') := by
    simp only [Scheduler.assign_pod_to_node, hfit, not_true_eq_false, if_false]
    exact ⟨_, _, rfl⟩
  obtain ⟨p', n', hpn⟩ := hsome
  have h := (assign_pod_to_node_spec podFit nodeFit).2 p' n' hpn
  rw [hpn]
  refine ⟨hfit, ?_, ?_, ?_, ?_⟩
  · simp [h.2.1]
  · simp [h.2.2.1]
  · simp [h.2.2.2.2.2.2.2.2.2.2.2.2.2.2.2.1]
  · simp [h.2.2.2.2.2.2.2.2.2.2.2.2.2.2.1]

/-- The four placement conditions of the claim, stated in its own terms:
not cordoned, enough available cpu and memory, and no taint whose effect
is NoSchedule or NoExecute. -/
def claimNodeFits (pod : Pod) (n : Node) : Prop :=
  n.cordoned = false ∧
  pod.cpu_request ≤ n.available_cpu ∧
  pod.mem_request ≤ n.available_mem ∧
  ∀ t ∈ n.taints, ¬(t.effect_or_empty = "NoSchedule" ∨ t.effect_or_empty = "NoExecute")

lemma node_passes_checks_iff (pod : Pod) (n : Node) :
    Scheduler.node_passes_checks pod n = true ↔ claimNodeFits pod n := by
  simp [Scheduler.node_passes_checks, claimNodeFits,
    Scheduler.is_blocked_by_taints, Taint.effect_or_empty, not_lt, not_or,
    List.any_eq_true, and_assoc]

lemma find?_min_of_pairwise {p : Node → Bool} :
    ∀ {l : List Node}, l.Pairwise nodeIdLe →
      ∀ {n : Node}, l.find? p = some n →
        ∀ m ∈ l, p m = true → n.node_id ≤ m.node_id := by
  intro l
  induction l with
  | nil =>
    intro _ n hfind
    simp at hfind
  | cons a t ih =>
    intro hl n hfind m hm hpm
    rw [List.pairwise_cons] at hl
    by_cases hpa : p a = true
    · rw [List.find?_cons_of_pos _ hpa] at hfind
      injection hfind with hna
      subst hna
      rcases List.mem_cons.mp hm with hma | hmt
      · subst hma
        exact le_refl _
      · exact hl.1 m hmt
    · rw [List.find?_cons_of_neg _ (by simpa using hpa)] at hfind
      rcases List.mem_cons.mp hm with hma | hmt
      · subst hma
        exact absurd hpm hpa
      · exact ih hl.2 hfind m hmt hpm

/-- C3: select_node returns a node exactly when some node passes the
four checks; a returned node is a member of the list, passes all four
checks (so is neither cordoned nor carries a NoSchedule/NoExecute
taint), and has the least node_id among all passing nodes; with no
passing node it returns none, not an error; and with two fitting nodes
whose ids are a and b it returns the one with id a. -/
theorem select_node_first_fit (nodes : List Node) (pod : Pod) :
    (∀ n, Scheduler.select_node nodes pod = some n →
      n ∈ nodes ∧ claimNodeFits pod n ∧
        ∀ m ∈ nodes, claimNodeFits pod m → n.node_id ≤ m.node_id) ∧
    (Scheduler.select_node nodes pod = none ↔
      ∀ m ∈ nodes, ¬ claimNodeFits pod m) ∧
    (∀ a b : Node, a.node_id = "a" → b.node_id = "b" →
      claimNodeFits pod a → claimNodeFits pod b →
      Scheduler.select_node [a, b] pod = some a) := by
  have hperm := List.perm_insertionSort nodeIdLe nodes
  have hsorted := List.sorted_insertionSort nodeIdLe nodes
  refine ⟨?_, ?_, ?_⟩
  · intro n hfind
    simp only [Scheduler.select_node] at hfind
    refine ⟨hperm.subset (List.mem_of_find?_eq_some hfind),
      (node_passes_checks_iff pod n).mp (List.find?_some hfind),
      fun m hm hfits => ?_⟩
    exact find?_min_of_pairwise hsorted hfind m (hperm.symm.subset hm)
      ((node_passes_checks_iff pod m).mpr hfits)
  · simp only [Scheduler.select_node, List.find?_eq_none]
    constructor
    · intro h m hm hfits
      exact h m (hperm.symm.subset hm)
        ((node_passes_checks_iff pod m).mpr hfits)
    · intro h m hm hpass
      exact h m (hperm.subset hm) ((node_passes_checks_iff pod m).mp hpass)
  · intro a b ha hb hfa hfb
    have hab : nodeIdLe a b := by
      show a.node_id ≤ b.node_id
      rw [ha, hb, String.le_iff_toList_le]
      decide
    simp only [Scheduler.select_node, List.insertionSort, List.orderedInsert,
      if_pos hab]
    rw [List.find?_cons_of_pos _ ((node_passes_checks_iff pod a).mpr hfa)]

/-- A concrete fitting node with id a. -/
def nodeA : Node :=
  Node.init "a" 4 8 4 8 [] []

/-- A concrete fitting node with id b. -/
def nodeB : Node :=
  Node.init "b" 4 8 4 8 [] []

/-- A concrete pending pod both nodes can fit. -/
def podAB : Pod :=
  Pod.init "p-1" "w-1" "default" 2 3 4 6 "pending"

/-- Witness for C3: with both concrete nodes fitting the pod, the node
with id a is selected. -/
theorem select_node_first_fit_witness :
    Scheduler.select_node [nodeA, nodeB] podAB = some nodeA :=
  (select_node_first_fit [nodeA, nodeB] podAB).2.2 nodeA nodeB rfl rfl
    (by
      refine ⟨rfl, ?_, ?_, by simp [nodeA, Node.init]⟩ <;>
        norm_num [Node.available_cpu, Node.available_mem, nodeA, Node.init,
          podAB, Pod.init])
    (by
      refine ⟨rfl, ?_, ?_, by simp [nodeB, Node.init]⟩ <;>
        norm_num [Node.available_cpu, Node.available_mem, nodeB, Node.init,
          podAB, Pod.init])

/-- C5: dispatching an event whose type is none of the seven known chaos
event types yields a failed result and leaves the whole cluster state
(nodes, pods, network policies) untouched: no default handler runs. -/
theorem unknown_event_fail_closed (st : ChaosState) (event : ChaosEvent)
    (h : event.type ∉ ["pod_crash", "node_cordon", "node_drain",
      "burst_traffic", "oom_storm", "netpol_lockout", "probe_failure"]) :
    (ChaosManager.dispatch_event st event).1.status = "failed" ∧
    (ChaosManager.dispatch_event st event).2 = st := by
  simp only [List.mem_cons, List.mem_singleton, not_or] at h
  unfold ChaosManager.dispatch_event
  split <;> simp_all

/-- A concrete one-node, one-pod, one-policy cluster state. -/
def stSmall : ChaosState :=
  { nodes := [Node.init "n-1" 4 8 4 8 [] []]
    pods := [Pod.init "p-1" "w-1" "default" 2 3 4 6 "pending"]
    network_policies :=
      [{ policy_id := "np-1", namespc := "default", pod_selector := [],
         allowed_ingress := [], enforced := false }] }

/-- Witness for C5: dispatching a teleport_pod event against the
concrete state fails and mutates nothing. -/
theorem unknown_event_fail_closed_witness :
    (ChaosManager.dispatch_event stSmall { type := "teleport_pod" }).1.status
        = "failed" ∧
    (ChaosManager.dispatch_event stSmall { type := "teleport_pod" }).2
        = stSmall :=
  unknown_event_fail_closed stSmall { type := "teleport_pod" } (by decide)

lemma find?_eq_some_of_decomp {α : Type} (p : α → Bool) (l1 : List α) (x : α)
    (l2 : List α) (h1 : ∀ y ∈ l1, p y = false) (hx : p x = true) :
    (l1 ++ x :: l2).find? p = some x := by
  induction l1 with
  | nil => rw [List.nil_append, List.find?_cons_of_pos _ hx]
  | cons a t ih =>
    rw [List.cons_append,
      List.find?_cons_of_neg _ (by simp [h1 a (List.mem_cons_self a t)])]
    exact ih fun y hy => h1 y (List.mem_cons_of_mem a hy)

lemma updateFirst_eq_of_decomp {α : Type} (p : α → Bool) (f : α → α)
    (l1 : List α) (x : α) (l2 : List α)
    (h1 : ∀ y ∈ l1, p y = false) (hx : p x = true) :
    updateFirst p f (l1 ++ x :: l2) = l1 ++ f x :: l2 := by
  induction l1 with
  | nil => simp [updateFirst, hx]
  | cons a t ih =>
    rw [List.cons_append, List.cons_append]
    simp [updateFirst, h1 a (List.mem_cons_self a t),
      ih fun y hy => h1 y (List.mem_cons_of_mem a hy)]

lemma map_updateFirst_of_invariant {α β : Type} (p : α → Bool) (f : α → α)
    (g : α → β) (hf : ∀ x, g (f x) = g x) :
    ∀ l : List α, (updateFirst p f l).map g = l.map g := by
  intro l
  induction l with
  | nil => rfl
  | cons a t ih =>
    by_cases hpa : p a = true
    · simp [updateFirst, hpa, hf a]
    · have hpa' : p a = false := by simpa using hpa
      simp [updateFirst, hpa', ih]

lemma oomStep_not_found (nodes : List Node) (pods : List Pod) (inc : ℚ)
    (pid : String)
    (hnone : pods.find? (fun p => decide (p.pod_id = pid)) = none) :
    ChaosManager.oomStep inc (nodes, pods) pid = (nodes, pods) := by
  simp only [ChaosManager.oomStep, hnone]

/-- The concrete pod of the OOM crash threshold scenario: mem_limit 100,
simulated_mem_usage 90, running on node n-1 with 2 past restarts. -/
def podOom : Pod :=
  { pod_id := "p-1"
    workload_id := "w-1"
    namespc := "default"
    cpu_request := 1
    mem_request := 50
    cpu_limit := 2
    mem_limit := 100
    simulated_cpu_usage := 1
    simulated_mem_usage := 90
    phase := "running"
    restart_count := 2
    assigned_node := some "n-1"
    last_probe_success := true }

/-- The concrete node the OOM pod runs on. -/
def nodeOom : Node :=
  { node_id := "n-1"
    cpu_capacity := 4
    mem_capacity := 200
    allocatable_cpu := 4
    allocatable_mem := 200
    current_cpu_usage := 1
    current_mem_usage := 90
    labels := []
    taints := []
    cordoned := false
    pods_running := ["p-1"] }

/-- The concrete oom_storm event adding 20 memory to pod p-1. -/
def evOom : ChaosEvent :=
  { type := "oom_storm", pod_ids := ["p-1"], memory_increase := 20 }

/-- The concrete cluster state of the OOM scenario. -/
def stOom : ChaosState :=
  { nodes := [nodeOom], pods := [podOom], network_policies := [] }

lemma oomStep_proj (inc : ℚ) (acc : List Node × List Pod) (pid : String) :
    ((ChaosManager.oomStep inc acc pid).2.map (fun p => p.assigned_node) =
        acc.2.map (fun p => p.assigned_node)) ∧
    ((ChaosManager.oomStep inc acc pid).1.map (fun n => n.pods_running) =
        acc.1.map (fun n => n.pods_running)) ∧
    ((ChaosManager.oomStep inc acc pid).1.map (fun n => n.current_cpu_usage) =
        acc.1.map (fun n => n.current_cpu_usage)) := by
  unfold ChaosManager.oomStep
  cases hfind : acc.2.find? (fun p => decide (p.pod_id = pid)) with
  | none =>
    simp only [hfind]
    exact ⟨by trivial, by trivial, by trivial⟩
  | some pod =>
    simp only [hfind]
    refine ⟨map_updateFirst_of_invariant _ _ _ ?_ _, ?_, ?_⟩
    · intro x
      by_cases hx : x.mem_limit < x.simulated_mem_usage + inc <;>
        simp [ChaosManager.oomPodUpdate, hx]
    · cases han : pod.assigned_node with
      | none => simp only [han]
      | some nid =>
        simp only [han]
        by_cases hne : nid = ""
        · simp [hne]
        · rw [if_neg hne]
          cases hfn : acc.1.find? (fun n => decide (n.node_id = nid)) with
          | none => simp only [hfn]
          | some nd =>
            simp only [hfn]
            exact map_updateFirst_of_invariant
              (fun n => decide (n.node_id = nid))
              (ChaosManager.oomNodeUpdate inc)
              (fun n => n.pods_running) (fun x => rfl) acc.1
    · cases han : pod.assigned_node with
      | none => simp only [han]
      | some nid =>
        simp only [han]
        by_cases hne : nid = ""
        · simp [hne]
        · rw [if_neg hne]
          cases hfn : acc.1.find? (fun n => decide (n.node_id = nid)) with
          | none => simp only [hfn]
          | some nd =>
            simp only [hfn]
            exact map_updateFirst_of_invariant
              (fun n => decide (n.node_id = nid))
              (ChaosManager.oomNodeUpdate inc)
              (fun n => n.current_cpu_usage) (fun x => rfl) acc.1

lemma foldl_oomStep_proj (inc : ℚ) (pids : List String) :
    ∀ acc : List Node × List Pod,
      ((pids.foldl (ChaosManager.oomStep inc) acc).2.map
          (fun p => p.assigned_node) = acc.2.map (fun p => p.assigned_node)) ∧
      ((pids.foldl (ChaosManager.oomStep inc) acc).1.map
          (fun n => n.pods_running) = acc.1.map (fun n => n.pods_running)) ∧
      ((pids.foldl (ChaosManager.oomStep inc) acc).1.map
          (fun n => n.current_cpu_usage) =
        acc.1.map (fun n => n.current_cpu_usage)) := by
  induction pids with
  | nil => exact fun acc => ⟨rfl, rfl, rfl⟩
  | cons pid rest ih =>
    intro acc
    obtain ⟨s1, s2, s3⟩ := oomStep_proj inc acc pid
    obtain ⟨i1, i2, i3⟩ := ih (ChaosManager.oomStep inc acc pid)
    exact ⟨i1.trans s1, i2.trans s2, i3.trans s3⟩

/-- C10: no crash transition releases node resources. Pod.crash touches
only phase and restart count (assigned_node, ids and simulated usage are
unchanged, and it does not touch any node); a probe_failure event leaves
the node list untouched and every pod's assigned_node unchanged; an
oom_storm event leaves every pod's assigned_node, every node's running
set and every node's cpu counter unchanged (only node memory counters
move, by its own additive update), so a crash-looping pod still occupies
its node. -/
theorem crash_transitions_frame (p : Pod) (st : ChaosState) (ev : ChaosEvent) :
    ((Pod.crash p).assigned_node = p.assigned_node ∧
     (Pod.crash p).pod_id = p.pod_id ∧
     (Pod.crash p).simulated_cpu_usage = p.simulated_cpu_usage ∧
     (Pod.crash p).simulated_mem_usage = p.simulated_mem_usage) ∧
    (ev.type = "probe_failure" →
      (ChaosManager.dispatch_event st ev).2.nodes = st.nodes ∧
      (ChaosManager.dispatch_event st ev).2.pods.map (fun q => q.assigned_node) =
        st.pods.map (fun q => q.assigned_node)) ∧
    (ev.type = "oom_storm" →
      (ChaosManager.dispatch_event st ev).2.pods.map (fun q => q.assigned_node) =
        st.pods.map (fun q => q.assigned_node) ∧
      (ChaosManager.dispatch_event st ev).2.nodes.map (fun n => n.pods_running) =
        st.nodes.map (fun n => n.pods_running) ∧
      (ChaosManager.dispatch_event st ev).2.nodes.map
          (fun n => n.current_cpu_usage) =
        st.nodes.map (fun n => n.current_cpu_usage)) := by
  refine ⟨⟨rfl, rfl, rfl, rfl⟩, ?_, ?_⟩
  · intro htype
    have hd : ChaosManager.dispatch_event st ev =
        ChaosManager.handle_probe_failure st ev := by
      unfold ChaosManager.dispatch_event
      rw [htype]
      rfl
    rw [hd]
    unfold ChaosManager.handle_probe_failure
    cases hfind : find_pod_by_id st.pods ev.pod_id with
    | none =>
      simp only [hfind]
      exact ⟨by trivial, by trivial⟩
    | some pod =>
      simp only [hfind]
      exact ⟨by trivial, map_updateFirst_of_invariant
        (fun q => decide (q.pod_id = pod.pod_id))
        (fun q => { q with
          last_probe_success := false
          phase := "crash_loop"
          restart_count := q.restart_count + 1 })
        (fun q => q.assigned_node) (fun x => rfl) st.pods⟩
  · intro htype
    have hd : ChaosManager.dispatch_event st ev =
        ChaosManager.handle_oom_storm st ev := by
      unfold ChaosManager.dispatch_event
      rw [htype]
      rfl
    rw [hd]
    unfold ChaosManager.handle_oom_storm
    exact foldl_oomStep_proj ev.memory_increase ev.pod_ids (st.nodes, st.pods)

/-- Witness for C10 at concrete inputs: crashing the concrete pod keeps
its assigned node, a concrete probe_failure event leaves the node list
untouched, and a concrete oom_storm event leaves every running set
untouched. -/
theorem crash_transitions_frame_witness :
    (Pod.crash podAB).assigned_node = podAB.assigned_node ∧
    (ChaosManager.dispatch_event stSmall
        { type := "probe_failure", pod_id := some "p-1" }).2.nodes =
      stSmall.nodes ∧
    (ChaosManager.dispatch_event stSmall
        { type := "oom_storm", pod_ids := ["p-1"],
          memory_increase := 5 }).2.nodes.map (fun n => n.pods_running) =
      stSmall.nodes.map (fun n => n.pods_running) := by
  obtain ⟨h1, h2, _⟩ := crash_transitions_frame podAB stSmall
    { type := "probe_failure", pod_id := some "p-1" }
  obtain ⟨_, _, h3⟩ := crash_transitions_frame podAB stSmall
    { type := "oom_storm", pod_ids := ["p-1"], memory_increase := 5 }
  exact ⟨h1.1, (h2 rfl).1, (h3 rfl).2.1⟩

lemma length_updateFirst {α : Type} (p : α → Bool) (f : α → α) :
    ∀ l : List α, (updateFirst p f l).length = l.length := by
  intro l
  induction l with
  | nil => rfl
  | cons a t ih =>
    by_cases hpa : p a = true
    · simp [updateFirst, hpa]
    · have hpa' : p a = false := by simpa using hpa
      simp [updateFirst, hpa', ih]

lemma getElem?_updateFirst_of_pred_false {α : Type} (p : α → Bool) (f : α → α) :
    ∀ (l : List α) (i : Nat) (x : α), l[i]? = some x → p x = false →
      (updateFirst p f l)[i]? = some x := by
  intro l
  induction l with
  | nil =>
    intro i x h
    simp at h
  | cons a t ih =>
    intro i x h hx
    cases i with
    | zero =>
      rw [List.getElem?_cons_zero, Option.some.injEq] at h
      subst h
      simp [updateFirst, hx]
    | succ n =>
      rw [List.getElem?_cons_succ] at h
      by_cases hpa : p a = true
      · simp [updateFirst, hpa, h]
      · have hpa' : p a = false := by simpa using hpa
        simp [updateFirst, hpa', ih n x h hx]

lemma getElem?_updateFirst_of_first {α : Type} (p : α → Bool) (f : α → α) :
    ∀ (l : List α) (i : Nat) (x : α), l[i]? = some x → p x = true →
      (∀ y ∈ l.take i, p y = false) →
      (updateFirst p f l)[i]? = some (f x) := by
  intro l
  induction l with
  | nil =>
    intro i x h
    simp at h
  | cons a t ih =>
    intro i x h hx hfirst
    cases i with
    | zero =>
      rw [List.getElem?_cons_zero, Option.some.injEq] at h
      subst h
      simp [updateFirst, hx]
    | succ n =>
      rw [List.getElem?_cons_succ] at h
      have hpa : p a = false := by
        apply hfirst
        rw [List.take_succ_cons]
        exact List.mem_cons_self a _
      have hfirst' : ∀ y ∈ t.take n, p y = false := by
        intro y hy
        apply hfirst
        rw [List.take_succ_cons]
        exact List.mem_cons_of_mem a hy
      simp [updateFirst, hpa, ih n x h hx hfirst']

lemma getElem?_updateFirst_of_later {α : Type} (p : α → Bool) (f : α → α) :
    ∀ (l : List α) (i : Nat) (x : α), l[i]? = some x →
      (∃ y ∈ l.take i, p y = true) →
      (updateFirst p f l)[i]? = some x := by
  intro l
  induction l with
  | nil =>
    intro i x h
    simp at h
  | cons a t ih =>
    intro i x h hex
    cases i with
    | zero =>
      obtain ⟨y, hy, _⟩ := hex
      rw [List.take_zero] at hy
      exact absurd hy (List.not_mem_nil y)
    | succ n =>
      rw [List.getElem?_cons_succ] at h
      obtain ⟨y, hy, hpy⟩ := hex
      rw [List.take_succ_cons, List.mem_cons] at hy
      by_cases hpa : p a = true
      · simp [updateFirst, hpa, h]
      · have hpa' : p a = false := by simpa using hpa
        rcases hy with hya | hyt
        · subst hya
          exact absurd hpy (by simp [hpa'])
        · simp [updateFirst, hpa', ih n x h ⟨y, hyt, hpy⟩]

lemma oomPodUpdate_pod_id (inc : ℚ) (x : Pod) :
    (ChaosManager.oomPodUpdate inc x).pod_id = x.pod_id := by
  by_cases hx : x.mem_limit < x.simulated_mem_usage + inc <;>
    simp [ChaosManager.oomPodUpdate, hx]

lemma oomPodUpdate_assigned_node (inc : ℚ) (x : Pod) :
    (ChaosManager.oomPodUpdate inc x).assigned_node = x.assigned_node := by
  by_cases hx : x.mem_limit < x.simulated_mem_usage + inc <;>
    simp [ChaosManager.oomPodUpdate, hx]

/-- The Boolean condition under which one targeted pod id contributes a
memory increase to the node with identifier nid: the first pod with that
id exists and its assigned_node is the (truthy, non-empty) nid. -/
def oomHitsNode (pods : List Pod) (pid : String) (nid : String) : Bool :=
  match pods.find? (fun p => decide (p.pod_id = pid)) with
  | none => false
  | some pod => decide (pod.assigned_node = some nid) && !(decide (nid = ""))

/-- How many entries of an oom_storm target list land a memory increase
on the node with identifier nid. -/
def oomNodeHits (pods : List Pod) (pod_ids : List String) (nid : String) : Nat :=
  (pod_ids.filter (fun pid => oomHitsNode pods pid nid)).length

lemma oomNodeHits_nil (pods : List Pod) (nid : String) :
    oomNodeHits pods [] nid = 0 := rfl

lemma oomNodeHits_cons (pods : List Pod) (pid : String) (rest : List String)
    (nid : String) :
    oomNodeHits pods (pid :: rest) nid =
      oomNodeHits pods rest nid +
        (if oomHitsNode pods pid nid = true then 1 else 0) := by
  unfold oomNodeHits
  rw [List.filter_cons]
  by_cases h : oomHitsNode pods pid nid = true <;> simp [h, Nat.add_comm]

lemma find?_assigned_stable (q : Pod → Bool) (f : Pod → Pod)
    (hid : ∀ x, (f x).pod_id = x.pod_id)
    (has : ∀ x, (f x).assigned_node = x.assigned_node) (s : String) :
    ∀ l : List Pod,
      ((updateFirst q f l).find? (fun p => decide (p.pod_id = s))).map
          (fun p => p.assigned_node) =
        (l.find? (fun p => decide (p.pod_id = s))).map
          (fun p => p.assigned_node) := by
  intro l
  induction l with
  | nil => rfl
  | cons a t ih =>
    by_cases hqa : q a = true
    · simp only [updateFirst, hqa, if_true]
      by_cases hs : a.pod_id = s
      · rw [List.find?_cons_of_pos _ (by simp [hid, hs]),
          List.find?_cons_of_pos _ (by simp [hs])]
        simp [has]
      · rw [List.find?_cons_of_neg _ (by simp [hid, hs]),
          List.find?_cons_of_neg _ (by simp [hs])]
    · have hqa' : q a = false := by simpa using hqa
      simp only [updateFirst, hqa', Bool.false_eq_true, if_false]
      by_cases hs : a.pod_id = s
      · rw [List.find?_cons_of_pos _ (by simp [hs]),
          List.find?_cons_of_pos _ (by simp [hs])]
      · rw [List.find?_cons_of_neg _ (by simp [hs]),
          List.find?_cons_of_neg _ (by simp [hs]), ih]

lemma oomHitsNode_updateFirst (inc : ℚ) (pid0 : String) (pods : List Pod)
    (pid nid : String) :
    oomHitsNode (updateFirst (fun p => decide (p.pod_id = pid0))
        (ChaosManager.oomPodUpdate inc) pods) pid nid =
      oomHitsNode pods pid nid := by
  unfold oomHitsNode
  have hst := find?_assigned_stable (fun p => decide (p.pod_id = pid0))
    (ChaosManager.oomPodUpdate inc) (oomPodUpdate_pod_id inc)
    (oomPodUpdate_assigned_node inc) pid pods
  cases h1 : pods.find? (fun p => decide (p.pod_id = pid)) with
  | none =>
    rw [h1] at hst
    cases h2 : (updateFirst (fun p => decide (p.pod_id = pid0))
        (ChaosManager.oomPodUpdate inc) pods).find?
          (fun p => decide (p.pod_id = pid)) with
    | none => rfl
    | some x =>
      rw [h2] at hst
      simp at hst
  | some pod =>
    rw [h1] at hst
    cases h2 : (updateFirst (fun p => decide (p.pod_id = pid0))
        (ChaosManager.oomPodUpdate inc) pods).find?
          (fun p => decide (p.pod_id = pid)) with
    | none =>
      rw [h2] at hst
      simp at hst
    | some x =>
      rw [h2] at hst
      simp only [Option.map_some', Option.some.injEq] at hst
      simp only [hst]

lemma oomNodeHits_updateFirst (inc : ℚ) (pid0 : String) (pods : List Pod)
    (rest : List String) (nid : String) :
    oomNodeHits (updateFirst (fun p => decide (p.pod_id = pid0))
        (ChaosManager.oomPodUpdate inc) pods) rest nid =
      oomNodeHits pods rest nid := by
  unfold oomNodeHits
  rw [List.filter_congr (fun pid _ => oomHitsNode_updateFirst inc pid0 pods pid nid)]

lemma oom_foldl_all_absent (inc : ℚ) :
    ∀ (pids : List String) (nodes : List Node) (pods : List Pod),
      (∀ pid ∈ pids, pods.find? (fun p => decide (p.pod_id = pid)) = none) →
      pids.foldl (ChaosManager.oomStep inc) (nodes, pods) = (nodes, pods) := by
  intro pids
  induction pids with
  | nil => intro nodes pods _; rfl
  | cons pid rest ih =>
    intro nodes pods habs
    rw [List.foldl_cons,
      oomStep_not_found nodes pods inc pid (habs pid (List.mem_cons_self _ _))]
    exact ih nodes pods fun q hq => habs q (List.mem_cons_of_mem _ hq)

lemma oomStep_found_eq (inc : ℚ) (nodes : List Node) (pods : List Pod)
    (pid : String) (pod : Pod)
    (hfind : pods.find? (fun p => decide (p.pod_id = pid)) = some pod) :
    ChaosManager.oomStep inc (nodes, pods) pid =
      ((match pod.assigned_node with
        | none => nodes
        | some nid =>
          if nid = "" then nodes
          else
            match nodes.find? (fun n => decide (n.node_id = nid)) with
            | none => nodes
            | some _ =>
              updateFirst (fun n => decide (n.node_id = nid))
                (ChaosManager.oomNodeUpdate inc) nodes),
       updateFirst (fun p => decide (p.pod_id = pid))
         (ChaosManager.oomPodUpdate inc) pods) := by
  simp only [ChaosManager.oomStep, hfind]

lemma take_forall_transfer {α β : Type} (g : α → β) (q : α → Bool) (f : α → α)
    (hg : ∀ x, g (f x) = g x) (l : List α) (i : Nat) (b : β)
    (h : ∀ y ∈ l.take i, g y ≠ b) :
    ∀ y ∈ (updateFirst q f l).take i, g y ≠ b := by
  intro y hy
  have hmaps : ((updateFirst q f l).take i).map g = (l.take i).map g := by
    rw [List.map_take, map_updateFirst_of_invariant q f g hg, ← List.map_take]
  have hmem : g y ∈ (l.take i).map g := by
    rw [← hmaps]
    exact List.mem_map_of_mem g hy
  obtain ⟨z, hz, hzg⟩ := List.mem_map.mp hmem
  rw [← hzg]
  exact h z hz

lemma take_exists_transfer {α β : Type} (g : α → β) (q : α → Bool) (f : α → α)
    (hg : ∀ x, g (f x) = g x) (l : List α) (i : Nat) (b : β)
    (h : ∃ y ∈ l.take i, g y = b) :
    ∃ y ∈ (updateFirst q f l).take i, g y = b := by
  obtain ⟨y, hy, hyb⟩ := h
  have hmaps : ((updateFirst q f l).take i).map g = (l.take i).map g := by
    rw [List.map_take, map_updateFirst_of_invariant q f g hg, ← List.map_take]
  have hmem : b ∈ ((updateFirst q f l).take i).map g := by
    rw [hmaps, ← hyb]
    exact List.mem_map_of_mem g hy
  obtain ⟨z, hz, hzg⟩ := List.mem_map.mp hmem
  exact ⟨z, hz, hzg⟩

lemma oomNodeUpdate_node_id (inc : ℚ) (x : Node) :
    (ChaosManager.oomNodeUpdate inc x).node_id = x.node_id := rfl

lemma oom_foldl_char (inc : ℚ) :
    ∀ (pids : List String) (nodes : List Node) (pods : List Pod),
      ((pids.foldl (ChaosManager.oomStep inc) (nodes, pods)).2.length =
        pods.length) ∧
      ((pids.foldl (ChaosManager.oomStep inc) (nodes, pods)).1.length =
        nodes.length) ∧
      (∀ i p, pods[i]? = some p →
        (∀ y ∈ pods.take i, y.pod_id ≠ p.pod_id) →
        (pids.foldl (ChaosManager.oomStep inc) (nodes, pods)).2[i]? =
          some ((ChaosManager.oomPodUpdate inc)^[pids.count p.pod_id] p)) ∧
      (∀ i p, pods[i]? = some p →
        (∃ y ∈ pods.take i, y.pod_id = p.pod_id) →
        (pids.foldl (ChaosManager.oomStep inc) (nodes, pods)).2[i]? = some p) ∧
      (∀ i n, nodes[i]? = some n →
        (∀ y ∈ nodes.take i, y.node_id ≠ n.node_id) →
        (pids.foldl (ChaosManager.oomStep inc) (nodes, pods)).1[i]? =
          some { n with current_mem_usage :=
            n.current_mem_usage +
              (oomNodeHits pods pids n.node_id : ℚ) * inc }) ∧
      (∀ i n, nodes[i]? = some n →
        (∃ y ∈ nodes.take i, y.node_id = n.node_id) →
        (pids.foldl (ChaosManager.oomStep inc) (nodes, pods)).1[i]? = some n) := by
  intro pids
  induction pids with
  | nil =>
    intro nodes pods
    refine ⟨rfl, rfl, ?_, ?_, ?_, ?_⟩
    · intro i p h _
      simpa using h
    · intro i p h _
      simpa using h
    · intro i n h _
      simp only [List.foldl_nil, oomNodeHits_nil, Nat.cast_zero, zero_mul,
        add_zero]
      exact h
    · intro i n h _
      simpa using h
  | cons pid rest ih =>
    intro nodes pods
    simp only [List.foldl_cons]
    cases hfind : pods.find? (fun p => decide (p.pod_id = pid)) with
    | none =>
      rw [oomStep_not_found nodes pods inc pid hfind]
      have habsent : ∀ q ∈ pods, q.pod_id ≠ pid := by
        intro q hq
        have := List.find?_eq_none.mp hfind q hq
        simpa using this
      obtain ⟨L1, L2, P1, P2, N1, N2⟩ := ih nodes pods
      refine ⟨L1, L2, ?_, P2, ?_, N2⟩
      · intro i p h hfirst
        have hne : p.pod_id ≠ pid := habsent p (List.getElem?_mem h)
        have hcount : (pid :: rest).count p.pod_id = rest.count p.pod_id := by
          simp [List.count_cons, Ne.symm hne]
        rw [hcount]
        exact P1 i p h hfirst
      · intro i n h hfirst
        have hhits : oomNodeHits pods (pid :: rest) n.node_id =
            oomNodeHits pods rest n.node_id := by
          rw [oomNodeHits_cons]
          simp [oomHitsNode, hfind]
        rw [hhits]
        exact N1 i n h hfirst
    | some pod0 =>
      rw [oomStep_found_eq inc nodes pods pid pod0 hfind]
      have podsChar : ∀ ns : List Node,
          ((rest.foldl (ChaosManager.oomStep inc)
              (ns, updateFirst (fun p => decide (p.pod_id = pid))
                (ChaosManager.oomPodUpdate inc) pods)).2.length =
            pods.length) ∧
          (∀ i p, pods[i]? = some p →
            (∀ y ∈ pods.take i, y.pod_id ≠ p.pod_id) →
            (rest.foldl (ChaosManager.oomStep inc)
                (ns, updateFirst (fun p => decide (p.pod_id = pid))
                  (ChaosManager.oomPodUpdate inc) pods)).2[i]? =
              some ((ChaosManager.oomPodUpdate inc)^[(pid :: rest).count p.pod_id] p)) ∧
          (∀ i p, pods[i]? = some p →
            (∃ y ∈ pods.take i, y.pod_id = p.pod_id) →
            (rest.foldl (ChaosManager.oomStep inc)
                (ns, updateFirst (fun p => decide (p.pod_id = pid))
                  (ChaosManager.oomPodUpdate inc) pods)).2[i]? = some p) := by
        intro ns
        obtain ⟨L1, -, P1, P2, -, -⟩ := ih ns
          (updateFirst (fun p => decide (p.pod_id = pid))
            (ChaosManager.oomPodUpdate inc) pods)
        refine ⟨L1.trans (length_updateFirst _ _ pods), ?_, ?_⟩
        · intro i p h hfirst
          by_cases hpp : p.pod_id = pid
          · have hq : (fun p : Pod => decide (p.pod_id = pid)) p = true := by
              simp [hpp]
            have htake : ∀ y ∈ pods.take i,
                (fun p : Pod => decide (p.pod_id = pid)) y = false := by
              intro y hy
              simp only [decide_eq_false_iff_not]
              exact fun hc => hfirst y hy (hc.trans hpp.symm)
            have h1 := getElem?_updateFirst_of_first
              (fun p : Pod => decide (p.pod_id = pid))
              (ChaosManager.oomPodUpdate inc) pods i p h hq htake
            have hfirst1 : ∀ y ∈ (updateFirst
                (fun p : Pod => decide (p.pod_id = pid))
                (ChaosManager.oomPodUpdate inc) pods).take i,
                y.pod_id ≠ (ChaosManager.oomPodUpdate inc p).pod_id := by
              rw [oomPodUpdate_pod_id]
              exact take_forall_transfer (fun x => x.pod_id) _ _
                (oomPodUpdate_pod_id inc) pods i p.pod_id hfirst
            have hres := P1 i _ h1 hfirst1
            rw [oomPodUpdate_pod_id] at hres
            have hcount : (pid :: rest).count p.pod_id =
                rest.count p.pod_id + 1 := by
              simp [List.count_cons, hpp]
            rw [hcount, Function.iterate_succ_apply]
            exact hres
          · have hq : (fun p : Pod => decide (p.pod_id = pid)) p = false := by
              simp [hpp]
            have h1 := getElem?_updateFirst_of_pred_false
              (fun p : Pod => decide (p.pod_id = pid))
              (ChaosManager.oomPodUpdate inc) pods i p h hq
            have hfirst1 := take_forall_transfer (fun x => x.pod_id)
              (fun p : Pod => decide (p.pod_id = pid))
              (ChaosManager.oomPodUpdate inc)
              (oomPodUpdate_pod_id inc) pods i p.pod_id hfirst
            have hres := P1 i p h1 hfirst1
            have hcount : (pid :: rest).count p.pod_id =
                rest.count p.pod_id := by
              simp [List.count_cons, Ne.symm hpp]
            rw [hcount]
            exact hres
        · intro i p h hex
          by_cases hpp : p.pod_id = pid
          · have h1 : (updateFirst (fun p : Pod => decide (p.pod_id = pid))
                (ChaosManager.oomPodUpdate inc) pods)[i]? = some p := by
              apply getElem?_updateFirst_of_later _ _ pods i p h
              obtain ⟨y, hy, hyid⟩ := hex
              exact ⟨y, hy, by simp [hyid, hpp]⟩
            have hex1 := take_exists_transfer (fun x => x.pod_id)
              (fun p : Pod => decide (p.pod_id = pid))
              (ChaosManager.oomPodUpdate inc)
              (oomPodUpdate_pod_id inc) pods i p.pod_id hex
            exact P2 i p h1 hex1
          · have hq : (fun p : Pod => decide (p.pod_id = pid)) p = false := by
              simp [hpp]
            have h1 := getElem?_updateFirst_of_pred_false
              (fun p : Pod => decide (p.pod_id = pid))
              (ChaosManager.oomPodUpdate inc) pods i p h hq
            have hex1 := take_exists_transfer (fun x => x.pod_id)
              (fun p : Pod => decide (p.pod_id = pid))
              (ChaosManager.oomPodUpdate inc)
              (oomPodUpdate_pod_id inc) pods i p.pod_id hex
            exact P2 i p h1 hex1
      have nodesSame :
          (∀ (i : Nat) (n : Node), nodes[i]? = some n →
            oomHitsNode pods pid n.node_id = false) →
          ((rest.foldl (ChaosManager.oomStep inc)
              (nodes, updateFirst (fun p => decide (p.pod_id = pid))
                (ChaosManager.oomPodUpdate inc) pods)).1.length =
            nodes.length) ∧
          (∀ i n, nodes[i]? = some n →
            (∀ y ∈ nodes.take i, y.node_id ≠ n.node_id) →
            (rest.foldl (ChaosManager.oomStep inc)
                (nodes, updateFirst (fun p => decide (p.pod_id = pid))
                  (ChaosManager.oomPodUpdate inc) pods)).1[i]? =
              some { n with current_mem_usage :=
                n.current_mem_usage +
                  (oomNodeHits pods (pid :: rest) n.node_id : ℚ) * inc }) ∧
          (∀ i n, nodes[i]? = some n →
            (∃ y ∈ nodes.take i, y.node_id = n.node_id) →
            (rest.foldl (ChaosManager.oomStep inc)
                (nodes, updateFirst (fun p => decide (p.pod_id = pid))
                  (ChaosManager.oomPodUpdate inc) pods)).1[i]? = some n) := by
        intro hcontrib
        obtain ⟨-, L2, -, -, N1, N2⟩ := ih nodes
          (updateFirst (fun p => decide (p.pod_id = pid))
            (ChaosManager.oomPodUpdate inc) pods)
        refine ⟨L2, ?_, N2⟩
        intro i n h hfirst
        have hres := N1 i n h hfirst
        rw [oomNodeHits_updateFirst] at hres
        have hcnt : oomNodeHits pods (pid :: rest) n.node_id =
            oomNodeHits pods rest n.node_id := by
          rw [oomNodeHits_cons, hcontrib i n h]
          simp
        rw [hcnt]
        exact hres
      cases han : pod0.assigned_node with
      | none =>
        simp only [han]
        have hns := nodesSame (by
          intro i n h
          simp [oomHitsNode, hfind, han])
        exact ⟨(podsChar nodes).1, hns.1, (podsChar nodes).2.1,
          (podsChar nodes).2.2, hns.2.1, hns.2.2⟩
      | some nid0 =>
        simp only [han]
        by_cases hnid0 : nid0 = ""
        · rw [if_pos hnid0]
          have hns := nodesSame (by
            intro i n h
            subst hnid0
            by_cases hn : n.node_id = ""
            · simp [oomHitsNode, hfind, han, hn]
            · simp [oomHitsNode, hfind, han, hn]
              exact fun hc => hn hc.symm)
          exact ⟨(podsChar nodes).1, hns.1, (podsChar nodes).2.1,
            (podsChar nodes).2.2, hns.2.1, hns.2.2⟩
        · rw [if_neg hnid0]
          cases hfn : nodes.find? (fun n => decide (n.node_id = nid0)) with
          | none =>
            simp only [hfn]
            have hns := nodesSame (by
              intro i n h
              have hne : n.node_id ≠ nid0 := by
                have := List.find?_eq_none.mp hfn n (List.getElem?_mem h)
                simpa using this
              simp [oomHitsNode, hfind, han]
              exact fun hc => (hne hc.symm).elim)
            exact ⟨(podsChar nodes).1, hns.1, (podsChar nodes).2.1,
              (podsChar nodes).2.2, hns.2.1, hns.2.2⟩
          | some node0 =>
            simp only [hfn]
            obtain ⟨-, L2, -, -, N1, N2⟩ := ih
              (updateFirst (fun n => decide (n.node_id = nid0))
                (ChaosManager.oomNodeUpdate inc) nodes)
              (updateFirst (fun p => decide (p.pod_id = pid))
                (ChaosManager.oomPodUpdate inc) pods)
            refine ⟨(podsChar _).1,
              L2.trans (length_updateFirst _ _ nodes),
              (podsChar _).2.1, (podsChar _).2.2, ?_, ?_⟩
            · intro i n h hfirst
              by_cases hn0 : n.node_id = nid0
              · have hq : (fun n : Node => decide (n.node_id = nid0)) n = true := by
                  simp [hn0]
                have htake : ∀ y ∈ nodes.take i,
                    (fun n : Node => decide (n.node_id = nid0)) y = false := by
                  intro y hy
                  simp only [decide_eq_false_iff_not]
                  exact fun hc => hfirst y hy (hc.trans hn0.symm)
                have h1 := getElem?_updateFirst_of_first
                  (fun n : Node => decide (n.node_id = nid0))
                  (ChaosManager.oomNodeUpdate inc) nodes i n h hq htake
                have hfirst1 : ∀ y ∈ (updateFirst
                    (fun n : Node => decide (n.node_id = nid0))
                    (ChaosManager.oomNodeUpdate inc) nodes).take i,
                    y.node_id ≠ (ChaosManager.oomNodeUpdate inc n).node_id := by
                  exact take_forall_transfer (fun x : Node => x.node_id)
                    (fun n : Node => decide (n.node_id = nid0))
                    (ChaosManager.oomNodeUpdate inc)
                    (oomNodeUpdate_node_id inc) nodes i n.node_id hfirst
                have hres := N1 i _ h1 hfirst1
                rw [oomNodeHits_updateFirst] at hres
                simp only [ChaosManager.oomNodeUpdate] at hres
                have hhit : oomHitsNode pods pid n.node_id = true := by
                  simp [oomHitsNode, hfind, han, hn0, hnid0]
                have hcnt : oomNodeHits pods (pid :: rest) n.node_id =
                    oomNodeHits pods rest n.node_id + 1 := by
                  rw [oomNodeHits_cons, hhit]
                  simp
                have harr : n.current_mem_usage +
                    ((oomNodeHits pods rest n.node_id + 1 : ℕ) : ℚ) * inc =
                    n.current_mem_usage + inc +
                      ((oomNodeHits pods rest n.node_id : ℕ) : ℚ) * inc := by
                  push_cast
                  ring
                rw [hcnt]
                rw [congrArg (fun v : ℚ =>
                  ({ n with current_mem_usage := v } : Node)) harr]
                exact hres
              · have hq : (fun n : Node => decide (n.node_id = nid0)) n = false := by
                  simp [hn0]
                have h1 := getElem?_updateFirst_of_pred_false
                  (fun n : Node => decide (n.node_id = nid0))
                  (ChaosManager.oomNodeUpdate inc) nodes i n h hq
                have hfirst1 := take_forall_transfer (fun x : Node => x.node_id)
                  (fun n : Node => decide (n.node_id = nid0))
                  (ChaosManager.oomNodeUpdate inc)
                  (oomNodeUpdate_node_id inc) nodes i n.node_id hfirst
                have hres := N1 i n h1 hfirst1
                rw [oomNodeHits_updateFirst] at hres
                have hhit : oomHitsNode pods pid n.node_id = false := by
                  simp [oomHitsNode, hfind, han]
                  exact fun hc => (hn0 hc.symm).elim
                have hcnt : oomNodeHits pods (pid :: rest) n.node_id =
                    oomNodeHits pods rest n.node_id := by
                  rw [oomNodeHits_cons, hhit]
                  simp
                rw [hcnt]
                exact hres
            · intro i n h hex
              by_cases hn0 : n.node_id = nid0
              · have h1 : (updateFirst
                    (fun n : Node => decide (n.node_id = nid0))
                    (ChaosManager.oomNodeUpdate inc) nodes)[i]? = some n := by
                  apply getElem?_updateFirst_of_later _ _ nodes i n h
                  obtain ⟨y, hy, hyid⟩ := hex
                  exact ⟨y, hy, by simp [hyid, hn0]⟩
                exact N2 i n h1 (take_exists_transfer (fun x : Node => x.node_id)
                  (fun n : Node => decide (n.node_id = nid0))
                  (ChaosManager.oomNodeUpdate inc)
                  (oomNodeUpdate_node_id inc) nodes i n.node_id hex)
              · have h1 := getElem?_updateFirst_of_pred_false
                  (fun n : Node => decide (n.node_id = nid0))
                  (ChaosManager.oomNodeUpdate inc) nodes i n h (by simp [hn0])
                exact N2 i n h1 (take_exists_transfer (fun x : Node => x.node_id)
                  (fun n : Node => decide (n.node_id = nid0))
                  (ChaosManager.oomNodeUpdate inc)
                  (oomNodeUpdate_node_id inc) nodes i n.node_id hex)

/-- C6: for every oom_storm event (any target list, mixed present and
absent ids), the result status is executed — absent pod ids are
silently skipped and never fail the event, and when every targeted id is
absent the state is completely untouched. Each application of the
per-pod update raises simulated memory by memory_increase without
clamping and crashes the pod (phase crash_loop, restart count up by
exactly 1) precisely when the new usage strictly exceeds its memory
limit, leaving phase and restart count unchanged otherwise. Pointwise
over the cluster: the first pod carrying a given id undergoes that
update once per occurrence of its id in the target list (later
duplicates in the pod list are never touched), and the first node
carrying a given id has its memory counter raised by memory_increase
once per targeted occurrence of an existing pod whose (truthy) assigned
node it is — regardless of whether those pods crashed, since the hit
count never inspects the crash branch. -/
theorem oom_storm_spec (st : ChaosState) (ev : ChaosEvent)
    (htype : ev.type = "oom_storm") :
    (ChaosManager.dispatch_event st ev).1.status = "executed" ∧
    ((∀ pid ∈ ev.pod_ids,
        st.pods.find? (fun p => decide (p.pod_id = pid)) = none) →
      (ChaosManager.dispatch_event st ev).2 = st) ∧
    (∀ q : Pod,
      (ChaosManager.oomPodUpdate ev.memory_increase q).simulated_mem_usage =
        q.simulated_mem_usage + ev.memory_increase ∧
      (q.mem_limit < q.simulated_mem_usage + ev.memory_increase →
        (ChaosManager.oomPodUpdate ev.memory_increase q).phase = "crash_loop" ∧
        (ChaosManager.oomPodUpdate ev.memory_increase q).restart_count =
          q.restart_count + 1) ∧
      (¬ q.mem_limit < q.simulated_mem_usage + ev.memory_increase →
        (ChaosManager.oomPodUpdate ev.memory_increase q).phase = q.phase ∧
        (ChaosManager.oomPodUpdate ev.memory_increase q).restart_count =
          q.restart_count) ∧
      (ChaosManager.oomPodUpdate ev.memory_increase q).pod_id = q.pod_id ∧
      (ChaosManager.oomPodUpdate ev.memory_increase q).assigned_node =
        q.assigned_node ∧
      (ChaosManager.oomPodUpdate ev.memory_increase q).mem_limit =
        q.mem_limit) ∧
    ((ChaosManager.dispatch_event st ev).2.pods.length = st.pods.length) ∧
    ((ChaosManager.dispatch_event st ev).2.nodes.length = st.nodes.length) ∧
    (∀ i p, st.pods[i]? = some p →
      (∀ y ∈ st.pods.take i, y.pod_id ≠ p.pod_id) →
      (ChaosManager.dispatch_event st ev).2.pods[i]? =
        some ((ChaosManager.oomPodUpdate
          ev.memory_increase)^[ev.pod_ids.count p.pod_id] p)) ∧
    (∀ i p, st.pods[i]? = some p →
      (∃ y ∈ st.pods.take i, y.pod_id = p.pod_id) →
      (ChaosManager.dispatch_event st ev).2.pods[i]? = some p) ∧
    (∀ i n, st.nodes[i]? = some n →
      (∀ y ∈ st.nodes.take i, y.node_id ≠ n.node_id) →
      (ChaosManager.dispatch_event st ev).2.nodes[i]? =
        some { n with current_mem_usage := n.current_mem_usage +
          (oomNodeHits st.pods ev.pod_ids n.node_id : ℚ) *
            ev.memory_increase }) ∧
    (∀ i n, st.nodes[i]? = some n →
      (∃ y ∈ st.nodes.take i, y.node_id = n.node_id) →
      (ChaosManager.dispatch_event st ev).2.nodes[i]? = some n) := by
  have hd : ChaosManager.dispatch_event st ev =
      ChaosManager.handle_oom_storm st ev := by
    unfold ChaosManager.dispatch_event
    rw [htype]
    rfl
  rw [hd]
  simp only [ChaosManager.handle_oom_storm]
  obtain ⟨L1, L2, P1, P2, N1, N2⟩ :=
    oom_foldl_char ev.memory_increase ev.pod_ids st.nodes st.pods
  refine ⟨by trivial, ?_, ?_, L1, L2, P1, P2, N1, N2⟩
  · intro habs
    rw [oom_foldl_all_absent ev.memory_increase ev.pod_ids st.nodes st.pods
      habs]
  · intro q
    by_cases hq : q.mem_limit < q.simulated_mem_usage + ev.memory_increase
    · exact ⟨by simp [ChaosManager.oomPodUpdate, hq],
        fun _ => ⟨by simp [ChaosManager.oomPodUpdate, hq],
          by simp [ChaosManager.oomPodUpdate, hq]⟩,
        fun hc => absurd hq hc,
        by simp [ChaosManager.oomPodUpdate, hq],
        by simp [ChaosManager.oomPodUpdate, hq],
        by simp [ChaosManager.oomPodUpdate, hq]⟩
    · exact ⟨by simp [ChaosManager.oomPodUpdate, hq],
        fun hc => absurd hc hq,
        fun _ => ⟨by simp [ChaosManager.oomPodUpdate, hq],
          by simp [ChaosManager.oomPodUpdate, hq]⟩,
        by simp [ChaosManager.oomPodUpdate, hq],
        by simp [ChaosManager.oomPodUpdate, hq],
        by simp [ChaosManager.oomPodUpdate, hq]⟩

/-- Witness for C6: the claim's 90/100/20 scenario run through the
general theorem — the event reports executed and pod p-1 ends with
simulated memory 110, phase crash_loop, restart count bumped from 2 to
exactly 3, while node n-1 gains exactly one 20-unit memory hit. -/
theorem oom_storm_spec_witness :
    (ChaosManager.dispatch_event stOom evOom).1.status = "executed" ∧
    ((ChaosManager.dispatch_event stOom evOom).2.pods[0]?).map
        (fun p => p.simulated_mem_usage) = some 110 ∧
    ((ChaosManager.dispatch_event stOom evOom).2.pods[0]?).map
        (fun p => p.phase) = some "crash_loop" ∧
    ((ChaosManager.dispatch_event stOom evOom).2.pods[0]?).map
        (fun p => p.restart_count) = some 3 ∧
    ((ChaosManager.dispatch_event stOom evOom).2.nodes[0]?).map
        (fun n => n.current_mem_usage) = some 110 := by
  obtain ⟨hstatus, -, hupd, -, -, P1, -, N1, -⟩ :=
    oom_storm_spec stOom evOom rfl
  have hp0 : stOom.pods[0]? = some podOom := rfl
  have hn0 : stOom.nodes[0]? = some nodeOom := rfl
  have hcount : evOom.pod_ids.count podOom.pod_id = 1 := by decide
  have hpods := P1 0 podOom hp0 (by simp)
  rw [hcount, Function.iterate_one] at hpods
  obtain ⟨hmem, hcrash, -, -, -, -⟩ := hupd podOom
  have hc : podOom.mem_limit <
      podOom.simulated_mem_usage + evOom.memory_increase := by
    norm_num [podOom, evOom]
  obtain ⟨hphase, hrestart⟩ := hcrash hc
  have hhits : oomNodeHits stOom.pods evOom.pod_ids nodeOom.node_id = 1 := by
    decide
  have hnodes := N1 0 nodeOom hn0 (by simp)
  rw [hhits] at hnodes
  refine ⟨hstatus, ?_, ?_, ?_, ?_⟩
  · rw [hpods]
    simp only [Option.map_some']
    rw [hmem]
    norm_num [podOom, evOom]
  · rw [hpods]
    simp only [Option.map_some']
    rw [hphase]
  · rw [hpods]
    simp only [Option.map_some']
    rw [hrestart]
    simp [podOom]
  · rw [hnodes]
    simp only [Option.map_some']
    norm_num [nodeOom, evOom]
